import Mathlib

set_option maxRecDepth 20000

/-!
Shallow embedding of the `database_engine` repository (Python).

The embedding models, straight from the source files:
  * the value universe of the interpreter (Python values flowing through the
    engine: int, float, bool, str, None) — Python floats are modeled as exact
    rationals; the inputs exercised here are small decimal literals where
    IEEE-754 rounding does not change any compared outcome;
  * `DataValidator._cast_value` / `validate_row_data` (utils.py — the copy that
    core.py imports) and the unused duplicate in parser.py;
  * `CommandParser` (parse_create_table, parse_insert, parse_select,
    parse_update, parse_delete, parse_drop_table, _split_values, _parse_value,
    evaluate_condition);
  * `DatabaseEngine` operations (core.py) over an explicit state holding the
    metadata file and the per-table data files.  `FileManager`'s metadata cache
    (decorators.cache_results) is observationally read-through here because the
    Python code mutates the single cached dict in place on every metadata
    update and writes it through, so reads always see the latest state;
  * `DatabaseSession.execute_command` (engine.py), including its
    `command.strip().upper()` normalization.  The interactive confirmation
    prompts of `confirm_action` (DROP/DELETE) are modeled as confirmed.

Python builtins (`int(x)`, `float(x)`, `str(x)`, comparison operators) are
modeled on the fragment the engine uses: ASCII text, decimal literals without
underscore separators and without inf/nan.  Regex patterns are hand-compiled
to equivalent deterministic matchers, keeping the greedy/lazy semantics of the
original patterns (documented at each parser).
-/

/-- An exact rational standing in for a Python float, kept as an
unnormalized numerator/denominator pair (denominator a positive power of
ten by construction).  Value-level equality and ordering are the
cross-multiplied comparisons below; structural equality is only used to
state which concrete representative a computation produces. -/
structure PyFloat where
  num : Int
  den : Nat
deriving DecidableEq, Repr

/-- Semantic equality of two float values. -/
def PyFloat.eqVal (a b : PyFloat) : Bool :=
  a.num * (b.den : Int) == b.num * (a.den : Int)

/-- Semantic strict order on float values (denominators positive). -/
def PyFloat.ltVal (a b : PyFloat) : Bool :=
  decide (a.num * (b.den : Int) < b.num * (a.den : Int))

/-- A Python value as it flows through the engine. -/
inductive Value where
  | int (n : Int)
  | float (q : PyFloat)
  | bool (b : Bool)
  | str (s : String)
  | null
deriving DecidableEq, Repr

/-- A stored row: a Python dict, i.e. an insertion-ordered association list
with unique keys. -/
abbrev Row := List (String × Value)

/-- A table schema: column name to declared type name, insertion-ordered. -/
abbrev Schema := List (String × String)

/-- Characters Python `str.strip()` (and regex `\s`) treat as whitespace
(ASCII fragment). -/
def pyIsWs (c : Char) : Bool :=
  c = ' ' || c = '\t' || c = '\n' || c = '\r' || c = '\x0b' || c = '\x0c'

def dropLeadingWs : List Char → List Char
  | [] => []
  | c :: cs => if pyIsWs c then dropLeadingWs cs else c :: cs

/-- `str.strip()` on a char list. -/
def stripChars (cs : List Char) : List Char :=
  (dropLeadingWs (dropLeadingWs cs).reverse).reverse

/-- `str.strip()`. -/
def pyStrip (s : String) : String := String.mk (stripChars s.data)

/-- `str.upper()` (ASCII; all commands exercised are ASCII). -/
def pyUpper (s : String) : String := String.mk (s.data.map Char.toUpper)

/-- `str.lower()` (ASCII). -/
def pyLower (s : String) : String := String.mk (s.data.map Char.toLower)

def digitsVal (ds : List Char) : Nat :=
  ds.foldl (fun a c => 10 * a + (c.toNat - 48)) 0

def allDigits (cs : List Char) : Bool := cs.all Char.isDigit

def natDigits (cs : List Char) : Option Nat :=
  match cs with
  | [] => Option.none
  | _ => if allDigits cs then some (digitsVal cs) else Option.none

/-- Python `int(s)` on a string: surrounding whitespace stripped, optional
sign, one or more decimal digits; anything else raises `ValueError`.
(Underscore separators and non-ASCII digits are not modeled.) -/
def pyIntOfString (s : String) : Option Int :=
  match stripChars s.data with
  | '+' :: rest => (natDigits rest).map Int.ofNat
  | '-' :: rest => (natDigits rest).map (fun n => -(Int.ofNat n))
  | rest => (natDigits rest).map Int.ofNat

def takeDigits (cs : List Char) : List Char × List Char :=
  match cs with
  | [] => ([], [])
  | c :: rest =>
    if c.isDigit then
      let (d, r) := takeDigits rest
      (c :: d, r)
    else ([], c :: rest)

def mantissaVal (ip fp : List Char) : PyFloat :=
  ⟨(digitsVal (ip ++ fp) : Int), Nat.pow 10 fp.length⟩

def expDigits (m : PyFloat) (neg : Bool) (ds : List Char) : Option PyFloat :=
  match natDigits ds with
  | some e =>
    some (if neg then ⟨m.num, m.den * Nat.pow 10 e⟩ else ⟨m.num * (Nat.pow 10 e : Int), m.den⟩)
  | Option.none => Option.none

def expPart (m : PyFloat) (r : List Char) : Option PyFloat :=
  match r with
  | '+' :: ds => expDigits m false ds
  | '-' :: ds => expDigits m true ds
  | ds => expDigits m false ds

def applyExp (m : PyFloat) (r : List Char) : Option PyFloat :=
  match r with
  | [] => some m
  | 'e' :: rest => expPart m rest
  | 'E' :: rest => expPart m rest
  | _ => Option.none

def floatBody (cs : List Char) : Option PyFloat :=
  let (ip, r1) := takeDigits cs
  match r1 with
  | '.' :: r2 =>
    let (fp, r3) := takeDigits r2
    if ip.isEmpty && fp.isEmpty then Option.none
    else applyExp (mantissaVal ip fp) r3
  | _ =>
    if ip.isEmpty then Option.none
    else applyExp (mantissaVal ip []) r1

/-- Python `float(s)` on a string: `[sign] (digits [. digits] | . digits)
[(e|E) [sign] digits]` with surrounding whitespace stripped.  The value is
modeled as an exact rational (`inf`/`nan`/underscores not modeled). -/
def pyFloatOfString (s : String) : Option PyFloat :=
  match stripChars s.data with
  | '+' :: rest => floatBody rest
  | '-' :: rest => (floatBody rest).map (fun m => ⟨-m.num, m.den⟩)
  | rest => floatBody rest

/-- Python `int(x)`: ints and bools pass through (True = 1), floats truncate
toward zero, strings parse strictly; None (and anything else) raises. -/
def pyIntOfValue : Value → Option Int
  | .int n => some n
  | .bool b => some (if b then 1 else 0)
  | .float q => some (Int.tdiv q.num (q.den : Int))
  | .str s => pyIntOfString s
  | .null => Option.none

/-- Python `float(x)`. -/
def pyFloatOfValue : Value → Option PyFloat
  | .int n => some ⟨n, 1⟩
  | .bool b => some ⟨if b then 1 else 0, 1⟩
  | .float q => some q
  | .str s => pyFloatOfString s
  | .null => Option.none

/-- Python `str(x)`.  For floats Python prints the shortest round-tripping
decimal; that full algorithm is not reproduced — no verified claim depends on
the text of `str` applied to a float. -/
def pyStrOfValue : Value → String
  | .int n => toString n
  | .bool b => if b then "True" else "False"
  | .float q => toString q.num ++ "/" ++ toString q.den
  | .str s => s
  | .null => "None"

/-- `DataValidator._cast_value` from utils.py — the copy that `core.py`
imports and hence the one used by INSERT row validation and UPDATE SET
validation.  Note: its bool branch accepts only `true/1/yes` and
`false/0/no` (case-insensitively) and does not accept bare integers. -/
def castValue (v : Value) (expectedType : String) : Except String Value :=
  if expectedType = "int" then
    match pyIntOfValue v with
    | some n => .ok (.int n)
    | Option.none => .error ("Value " ++ pyStrOfValue v ++ " cannot be cast to int")
  else if expectedType = "float" then
    match pyFloatOfValue v with
    | some q => .ok (.float q)
    | Option.none => .error ("Value " ++ pyStrOfValue v ++ " cannot be cast to float")
  else if expectedType = "bool" then
    match v with
    | .bool b => .ok (.bool b)
    | .str s =>
      if pyLower s = "true" || pyLower s = "1" || pyLower s = "yes" then .ok (.bool true)
      else if pyLower s = "false" || pyLower s = "0" || pyLower s = "no" then .ok (.bool false)
      else .error ("Value " ++ s ++ " cannot be cast to bool")
    | _ => .error ("Value " ++ pyStrOfValue v ++ " cannot be cast to bool")
  else .ok (.str (pyStrOfValue v))

/-- `DataValidator._cast_value` from parser.py — a duplicate class that the
engine never imports.  Its bool branch additionally accepts `"t"`/`"f"` and
bare integers. -/
def castValueParserCopy (v : Value) (expectedType : String) : Except String Value :=
  if expectedType = "int" then
    match pyIntOfValue v with
    | some n => .ok (.int n)
    | Option.none => .error ("Value " ++ pyStrOfValue v ++ " cannot be cast to int")
  else if expectedType = "float" then
    match pyFloatOfValue v with
    | some q => .ok (.float q)
    | Option.none => .error ("Value " ++ pyStrOfValue v ++ " cannot be cast to float")
  else if expectedType = "bool" then
    match v with
    | .bool b => .ok (.bool b)
    | .str s =>
      if pyLower s = "true" || pyLower s = "1" || pyLower s = "yes" || pyLower s = "t" then
        .ok (.bool true)
      else if pyLower s = "false" || pyLower s = "0" || pyLower s = "no" || pyLower s = "f" then
        .ok (.bool false)
      else .error ("Value " ++ s ++ " cannot be cast to bool")
    | .int n => .ok (.bool (n ≠ 0))
    | _ => .error ("Value " ++ pyStrOfValue v ++ " cannot be cast to bool")
  else .ok (.str (pyStrOfValue v))

/-- Python `d[k]` / `d.get(k)` on an association-list dict. -/
def dictGet {α : Type} (k : String) : List (String × α) → Option α
  | [] => Option.none
  | p :: rest => if p.1 = k then some p.2 else dictGet k rest

/-- Python `d[k] = v`: replace in place if the key exists, else append. -/
def dictUpsert {α : Type} (k : String) (v : α) : List (String × α) → List (String × α)
  | [] => [(k, v)]
  | p :: rest => if p.1 = k then (k, v) :: rest else p :: dictUpsert k v rest

/-- Python `del d[k]`. -/
def dictDel {α : Type} (k : String) : List (String × α) → List (String × α)
  | [] => []
  | p :: rest => if p.1 = k then rest else p :: dictDel k rest

def dictKeys {α : Type} (d : List (String × α)) : List String := d.map Prod.fst

/-- A sequence of Python dict assignments (`d.update(us)`, `{**d, **us}`). -/
def dictUpsertMany {α : Type} (d us : List (String × α)) : List (String × α) :=
  us.foldl (fun acc p => dictUpsert p.1 p.2 acc) d

/-- `CommandParser._split_values`: split a value list on top-level commas,
treating quoted runs as opaque and honoring backslash escapes.  Direct port
of the character loop. -/
def splitValuesAux (pending : List Char) (vals : List String) (current : List Char)
    (inQ : Bool) (qc : Option Char) (esc : Bool) : List String :=
  match pending with
  | [] =>
    let c := stripChars current
    if c.isEmpty then vals else vals ++ [String.mk c]
  | ch :: rest =>
    if esc then splitValuesAux rest vals (current ++ [ch]) inQ qc false
    else if ch = '\\' then splitValuesAux rest vals current inQ qc true
    else if (ch = '"' || ch = '\'') && !inQ then
      splitValuesAux rest vals (current ++ [ch]) true (some ch) false
    else if some ch = qc && inQ then
      splitValuesAux rest vals (current ++ [ch]) false Option.none false
    else if ch = ',' && !inQ then
      splitValuesAux rest (vals ++ [String.mk (stripChars current)]) [] inQ qc false
    else splitValuesAux rest vals (current ++ [ch]) inQ qc false

def splitValues (s : String) : List String :=
  splitValuesAux s.data [] [] false Option.none false

/-- `CommandParser._parse_value`: guess a typed value from a literal token. -/
def parseValue (value : String) : Value :=
  let cs := value.data
  if (cs.head? = some '"' && cs.getLast? = some '"')
      || (cs.head? = some '\'' && cs.getLast? = some '\'') then
    .str (String.mk (cs.drop 1).dropLast)
  else if pyLower value = "true" then .bool true
  else if pyLower value = "false" then .bool false
  else if pyLower value = "null" || pyLower value = "none" then .null
  else
    match pyIntOfString value with
    | some n => .int n
    | Option.none =>
      match pyFloatOfString value with
      | some q => .float q
      | Option.none => .str value

/-- Numeric view used by Python comparisons: int, float and bool (False=0,
True=1) compare numerically with each other. -/
def valNum : Value → Option PyFloat
  | .int n => some ⟨n, 1⟩
  | .float q => some q
  | .bool b => some ⟨if b then 1 else 0, 1⟩
  | _ => Option.none

/-- Python `==` across the value universe: numeric kinds compare numerically,
strings compare as strings, None equals only None, and any other mixed pair
is unequal (never an error). -/
def pyEq (a b : Value) : Bool :=
  match valNum a, valNum b with
  | some x, some y => x.eqVal y
  | _, _ =>
    match a, b with
    | .str s, .str t => s == t
    | .null, .null => true
    | _, _ => false

/-- Python `<`: numeric kinds and string/string are ordered; every other pair
(string vs number, None vs anything, ...) raises `TypeError`. -/
def pyLtB (a b : Value) : Except String Bool :=
  match valNum a, valNum b with
  | some x, some y => .ok (x.ltVal y)
  | _, _ =>
    match a, b with
    | .str s, .str t => .ok (decide (s < t))
    | _, _ => .error "TypeError: unorderable operand types"

/-- The operator scan order of `evaluate_condition`. -/
def condOps : List String := [">=", "<=", "!=", "=", ">", "<"]

/-- Is `pat` a prefix of `s` (case-sensitive)? -/
def leadsWith : List Char → List Char → Bool
  | [], _ => true
  | _ :: _, [] => false
  | p :: ps, c :: cs => p = c && leadsWith ps cs

/-- Split `hay` at the first occurrence of `pat` (pattern removed), like
Python `hay.split(pat, 1)` when `pat in hay`. -/
def splitFirstAt (pat : List Char) : List Char → Option (List Char × List Char)
  | [] => Option.none
  | c :: cs =>
    if leadsWith pat (c :: cs) then some ([], (c :: cs).drop pat.length)
    else
      match splitFirstAt pat cs with
      | some (l, r) => some (c :: l, r)
      | Option.none => Option.none

/-- Scan the operator list in order; use the first operator occurring anywhere
in the condition, split at its first occurrence. -/
def findOp (cond : List Char) : List String → Option (String × List Char × List Char)
  | [] => Option.none
  | op :: rest =>
    match splitFirstAt op.data cond with
    | some (l, r) => some (op, l, r)
    | Option.none => findOp cond rest

/-- `CommandParser.evaluate_condition`: evaluate a single-comparison WHERE
text against a row.  The left side is looked up in the row (absent → None,
via `row.get`), the right side goes through `_parse_value`.  Ordering
comparisons on mismatched types raise (Except.error); `=`/`!=` use Python
equality, which never raises.  With no recognized operator the condition is
vacuously true. -/
def evaluateCondition (row : Row) (condition : String) : Except String Bool :=
  match findOp condition.data condOps with
  | some (op, l, r) =>
    let leftVal := (dictGet (String.mk (stripChars l)) row).getD .null
    let rightVal := parseValue (String.mk (stripChars r))
    if op = "=" then .ok (pyEq leftVal rightVal)
    else if op = "!=" then .ok (!pyEq leftVal rightVal)
    else if op = ">" then pyLtB rightVal leftVal
    else if op = "<" then pyLtB leftVal rightVal
    else if op = ">=" then (pyLtB leftVal rightVal).map (!·)
    else (pyLtB rightVal leftVal).map (!·)
  | Option.none => .ok true

/-- The persistent state the engine operates on: the metadata file
(`db_meta.json`, table name → schema) and the per-table data files
(`data/<name>.json`).  The `cache_results` wrapper on metadata reads is
observationally read-through (the cached dict is mutated in place and always
written through), so reads are modeled directly on this state. -/
structure DBState where
  metadata : List (String × Schema)
  tables : List (String × List Row)
deriving DecidableEq, Repr

/-- `FileManager.table_exists`. -/
def tableExists (st : DBState) (name : String) : Bool :=
  (dictGet name st.metadata).isSome

/-- `FileManager.read_table_data` (missing file reads as an empty list). -/
def readTableData (st : DBState) (name : String) : List Row :=
  (dictGet name st.tables).getD []

/-- `FileManager.write_table_data`. -/
def writeTableData (st : DBState) (name : String) (data : List Row) : DBState :=
  { st with tables := dictUpsert name data st.tables }

/-- Result of executing one command: a message string, a row list from
SELECT, or the table list from LIST TABLES. -/
inductive ExecResult where
  | msg (s : String)
  | rows (rs : List Row)
  | tables (ts : List String)
deriving DecidableEq, Repr

/-- `DatabaseEngine.create_table`.  Merges `{**DEFAULT_COLUMNS, **columns}`:
the implicit `id:int` first, then every declared column (a declared column
named `id` overwrites the default in place). -/
def createTable (st : DBState) (t : String) (columns : Schema) : ExecResult × DBState :=
  if tableExists st t then (.msg "Error: Table already exists", st)
  else
    let allColumns := dictUpsertMany [("id", "int")] columns
    let st1 : DBState := { st with metadata := dictUpsert t allColumns st.metadata }
    (.msg "Table created successfully", writeTableData st1 t [])

/-- `DatabaseEngine.drop_table` (confirmation prompt modeled as confirmed). -/
def dropTable (st : DBState) (t : String) : ExecResult × DBState :=
  if !tableExists st t then (.msg "Error: Table does not exist", st)
  else
    let st1 : DBState := { st with metadata := dictDel t st.metadata }
    (.msg "Table dropped successfully", { st1 with tables := dictDel t st1.tables })

/-- The non-identity columns of a schema, in declared order
(`[name for name in columns.keys() if name != "id"]`). -/
def dataColumns (columns : Schema) : Schema :=
  columns.filter (fun p => p.1 ≠ "id")

/-- Coerce each (column, value) pair in order, stopping at the first
failure — the loop body of `validate_row_data`. -/
def castPairs : List ((String × String) × Value) → Except String (List (String × Value))
  | [] => .ok []
  | ((c, ty), v) :: rest => do
    let v2 ← castValue v ty
    let r ← castPairs rest
    .ok ((c, v2) :: r)

/-- `DataValidator.validate_row_data` from utils.py (the copy core.py uses):
arity check against `len(columns) - 1`, then positional coercion against the
non-identity columns, building the validated dict. -/
def validateRowData (columns : Schema) (rowData : List Value) : Except String Row :=
  if (rowData.length : Int) ≠ (columns.length : Int) - 1 then
    .error ("Expected " ++ toString ((columns.length : Int) - 1) ++ " values, got "
      ++ toString rowData.length)
  else do
    let pairs ← castPairs ((dataColumns columns).zip rowData)
    .ok (dictUpsertMany [] pairs)

/-- The id value of a row, `row.get("id", 0)`. -/
def rowIdOrZero (r : Row) : Value := (dictGet "id" r).getD (.int 0)

/-- Extract all id values as integers.  Stored ids are integers in every
execution modeled here; on a non-integer id Python's `max` could compare
mixed types and raise, which surfaces as the error case. -/
def idsAsInts : List Row → Option (List Int)
  | [] => some []
  | r :: rs =>
    match rowIdOrZero r with
    | .int n => (idsAsInts rs).map (n :: ·)
    | _ => Option.none

/-- Python `max(ns, default=0)`: the default applies only to an empty list;
a nonempty list yields its true maximum, which may be negative. -/
def pyMaxDefault0 : List Int → Int
  | [] => 0
  | n :: rest => rest.foldl max n

/-- `max([row.get("id", 0) for row in data], default=0) + 1`. -/
def newIdE (data : List Row) : Except String Int :=
  match idsAsInts data with
  | some ns => .ok (pyMaxDefault0 ns + 1)
  | Option.none => .error "unorderable id values"

/-- `DatabaseEngine.insert_row`. -/
def insertRow (st : DBState) (t : String) (values : List Value) : ExecResult × DBState :=
  if !tableExists st t then (.msg "Error: Table does not exist", st)
  else
    let columns := (dictGet t st.metadata).getD []
    let data := readTableData st t
    match validateRowData columns values with
    | .error e => (.msg ("Error: " ++ e), st)
    | .ok validated =>
      match newIdE data with
      | .error e => (.msg ("Unexpected error: " ++ e), st)
      | .ok nid =>
        let row := dictUpsert "id" (.int nid) validated
        (.msg "Row inserted successfully", writeTableData st t (data ++ [row]))

/-- Truthiness of the optional WHERE text (`if where_condition:`). -/
def condActive : Option String → Bool
  | Option.none => false
  | some c => c ≠ ""

/-- Row filter of `select_rows`: keep rows satisfying the condition; the
first evaluation error aborts the whole comprehension. -/
def filterRowsE (cond : String) : List Row → Except String (List Row)
  | [] => .ok []
  | r :: rs => do
    let b ← evaluateCondition r cond
    let rest ← filterRowsE cond rs
    .ok (if b then r :: rest else rest)

/-- Column projection of `select_rows`: requested columns in requested order,
silently skipping columns absent from the row. -/
def projectRow (cols : List String) (r : Row) : Row :=
  cols.foldl
    (fun acc c =>
      match dictGet c r with
      | some v => dictUpsert c v acc
      | Option.none => acc) []

/-- `DatabaseEngine.select_rows`.  A missing table raises `ValueError`,
surfaced by `handle_db_errors` as the same message string; a comparison
`TypeError` during filtering surfaces via the generic handler.  No branch
writes to storage. -/
def selectRows (st : DBState) (t : String) (cols : List String) (cond : Option String) :
    ExecResult × DBState :=
  if !tableExists st t then (.msg "Error: Table does not exist", st)
  else
    let data := readTableData st t
    match (if condActive cond then filterRowsE (cond.getD "") data else .ok data) with
    | .error e => (.msg ("Unexpected error: " ++ e), st)
    | .ok data2 =>
      if cols ≠ ["*"] then (.rows (data2.map (projectRow cols)), st)
      else (.rows data2, st)

/-- The SET-coercion loop of `update_rows`: for each assignment in order,
fail on a column absent from the schema, then coerce to the declared type,
failing on a cast error.  Nothing is applied to any row before this loop
finishes. -/
def coerceUpdates (columns : Schema) : List (String × Value) → Except String (List (String × Value))
  | [] => .ok []
  | (c, v) :: rest =>
    match dictGet c columns with
    | Option.none => .error ("Column " ++ c ++ " not found")
    | some ty =>
      match castValue v ty with
      | .error e => .error e
      | .ok v2 => (coerceUpdates columns rest).map ((c, v2) :: ·)

/-- The row loop of `update_rows`: update every row matching the condition
(all rows when no condition), counting matches; an evaluation error aborts
before anything is persisted. -/
def updateLoop (ups : List (String × Value)) (cond : Option String) :
    List Row → Except String (List Row × Nat)
  | [] => .ok ([], 0)
  | r :: rs => do
    let b ← (if condActive cond then evaluateCondition r (cond.getD "") else .ok true)
    let (rest, n) ← updateLoop ups cond rs
    if b then .ok (dictUpsertMany r ups :: rest, n + 1) else .ok (r :: rest, n)

/-- `DatabaseEngine.update_rows`. -/
def updateRows (st : DBState) (t : String) (ups : List (String × Value)) (cond : Option String) :
    ExecResult × DBState :=
  if !tableExists st t then (.msg "Error: Table does not exist", st)
  else
    let columns := (dictGet t st.metadata).getD []
    let data := readTableData st t
    match coerceUpdates columns ups with
    | .error e => (.msg ("Error: " ++ e), st)
    | .ok ups2 =>
      match updateLoop ups2 cond data with
      | .error e => (.msg ("Unexpected error: " ++ e), st)
      | .ok (data2, n) => (.msg (toString n ++ " rows updated"), writeTableData st t data2)

/-- The row filter of `delete_rows`: keep rows NOT matching the condition. -/
def deleteLoop (cond : String) : List Row → Except String (List Row)
  | [] => .ok []
  | r :: rs => do
    let b ← evaluateCondition r cond
    let rest ← deleteLoop cond rs
    .ok (if b then rest else r :: rest)

/-- `DatabaseEngine.delete_rows` (confirmation prompt modeled as confirmed). -/
def deleteRows (st : DBState) (t : String) (cond : Option String) : ExecResult × DBState :=
  if !tableExists st t then (.msg "Error: Table does not exist", st)
  else
    let data := readTableData st t
    if condActive cond then
      match deleteLoop (cond.getD "") data with
      | .error e => (.msg ("Unexpected error: " ++ e), st)
      | .ok kept =>
        (.msg (toString (data.length - kept.length) ++ " rows deleted"),
         writeTableData st t kept)
    else
      (.msg (toString data.length ++ " rows deleted"), writeTableData st t [])

/-- Consume `pat` at the head of `s` case-insensitively (regex IGNORECASE
keyword matching), returning the remainder. -/
def matchCI : List Char → List Char → Option (List Char)
  | [], rest => some rest
  | _ :: _, [] => Option.none
  | p :: ps, c :: cs => if c.toUpper = p.toUpper then matchCI ps cs else Option.none

/-- Regex `\w` (ASCII fragment; all identifiers exercised are ASCII). -/
def isWordChar (c : Char) : Bool := c.isAlpha || c.isDigit || c = '_'

/-- The last index of `c` in `cs`, if any. -/
def lastIdxOf (c : Char) : List Char → Option Nat
  | [] => Option.none
  | x :: rest =>
    match lastIdxOf c rest with
    | some i => some (i + 1)
    | Option.none => if x = c then some 0 else Option.none

/-- Greedy `(.+)\)` after an opening parenthesis: the content runs to the
last `)` reachable without crossing a newline (`.` does not match `\n`) and
must be nonempty; trailing text after that `)` is ignored (`re.match` only
anchors the start). -/
def greedyParenContent (cs : List Char) : Option (List Char) :=
  let region := cs.takeWhile (fun c => c ≠ '\n')
  match lastIdxOf ')' region with
  | some p => if 1 ≤ p then some (region.take p) else Option.none
  | Option.none => Option.none

def supportedTypes : List String := ["int", "str", "float", "bool"]

/-- The column-definition loop of `parse_create_table`: split on every comma,
strip, skip empties, split each on whitespace runs; fewer than two tokens is
a syntax error (extra tokens are ignored); the second token lower-cased must
be a supported type. -/
def splitOnCommaAux : List Char → List Char → List (List Char)
  | [], cur => [cur.reverse]
  | c :: cs, cur =>
    if c = ',' then cur.reverse :: splitOnCommaAux cs []
    else splitOnCommaAux cs (c :: cur)

def splitOnComma (cs : List Char) : List (List Char) := splitOnCommaAux cs []

/-- Python `str.split()` with no argument: split on whitespace runs,
producing no empty chunks. -/
def pySplitWsAux : List Char → List Char → List (List Char)
  | [], cur => if cur.isEmpty then [] else [cur.reverse]
  | c :: cs, cur =>
    if pyIsWs c then
      if cur.isEmpty then pySplitWsAux cs [] else cur.reverse :: pySplitWsAux cs []
    else pySplitWsAux cs (c :: cur)

def pySplitWs (cs : List Char) : List (List Char) := pySplitWsAux cs []

def parseColumnDefsAux : List (List Char) → Schema → Except String Schema
  | [], acc => .ok acc
  | cd :: rest, acc =>
    let cds := stripChars cd
    if cds.isEmpty then parseColumnDefsAux rest acc
    else
      match pySplitWs cds with
      | t1 :: t2 :: _ =>
        let ty := pyLower (String.mk t2)
        if supportedTypes.contains ty then
          parseColumnDefsAux rest (dictUpsert (String.mk t1) ty acc)
        else .error ("Invalid data type: " ++ ty)
      | _ => .error "Invalid syntax"

/-- `CommandParser.parse_create_table`:
`re.match(r"CREATE\s+TABLE\s+(\w+)\s*\((.+)\)", command, IGNORECASE)`,
then the column-definition loop. -/
def parseCreateTable (command : String) : Except String (String × Schema) :=
  match matchCI "CREATE".data command.data with
  | Option.none => .error "Invalid syntax"
  | some r1 =>
    let ws1 := r1.takeWhile pyIsWs
    if ws1.isEmpty then .error "Invalid syntax"
    else
      match matchCI "TABLE".data (r1.drop ws1.length) with
      | Option.none => .error "Invalid syntax"
      | some r2 =>
        let ws2 := r2.takeWhile pyIsWs
        if ws2.isEmpty then .error "Invalid syntax"
        else
          let r3 := r2.drop ws2.length
          let name := r3.takeWhile isWordChar
          if name.isEmpty then .error "Invalid syntax"
          else
            match (r3.drop name.length).dropWhile pyIsWs with
            | '(' :: r5 =>
              match greedyParenContent r5 with
              | some content =>
                (parseColumnDefsAux (splitOnComma content) []).map
                  (fun cols => (String.mk name, cols))
              | Option.none => .error "Invalid syntax"
            | _ => .error "Invalid syntax"

/-- `CommandParser.parse_insert`:
`re.match(r"INSERT INTO (\w+) VALUES \((.+)\)", command, IGNORECASE)`,
then `_split_values` and `_parse_value` on each literal. -/
def parseInsert (command : String) : Except String (String × List Value) :=
  match matchCI "INSERT INTO ".data command.data with
  | Option.none => .error "Invalid syntax"
  | some r1 =>
    let name := r1.takeWhile isWordChar
    if name.isEmpty then .error "Invalid syntax"
    else
      match matchCI " VALUES (".data (r1.drop name.length) with
      | Option.none => .error "Invalid syntax"
      | some r3 =>
        match greedyParenContent r3 with
        | some content =>
          .ok (String.mk name,
               (splitValues (String.mk content)).map (fun v => parseValue (pyStrip v)))
        | Option.none => .error "Invalid syntax"

/-- All ways to split `s` as `before ++ pat ++ afterPat` (case-insensitive
pattern), left to right — the backtracking positions for a greedy group in
front of a literal. -/
def splitsAtCI (pat : List Char) : List Char → List (List Char × List Char)
  | [] =>
    match matchCI pat [] with
    | some r => [([], r)]
    | Option.none => []
  | c :: cs =>
    let here :=
      match matchCI pat (c :: cs) with
      | some r => [([], r)]
      | Option.none => []
    here ++ (splitsAtCI pat cs).map (fun p => (c :: p.1, p.2))

/-- Pick the rightmost viable candidate — greedy preference of `(.+)` before
the literal being split on. -/
def lastViable {α β : Type} (f : α → Option β) : List α → Option β
  | [] => Option.none
  | x :: xs =>
    match lastViable f xs with
    | some b => some b
    | Option.none => f x

/-- One candidate of `SELECT (.+) FROM (\w+) WHERE (.+)`: the part before
` FROM ` must be a nonempty newline-free group, then a nonempty word run,
then ` WHERE ` and at least one non-newline character. -/
def selTryWhere (split : List Char × List Char) :
    Option (List Char × List Char × List Char) :=
  let g1 := split.1
  let rest := split.2
  if g1.isEmpty || g1.contains '\n' then Option.none
  else
    let w := rest.takeWhile isWordChar
    if w.isEmpty then Option.none
    else
      match matchCI " WHERE ".data (rest.drop w.length) with
      | some r2 =>
        let g3 := r2.takeWhile (fun c => c ≠ '\n')
        if g3.isEmpty then Option.none else some (g1, w, g3)
      | Option.none => Option.none

/-- One candidate of `SELECT (.+) FROM (\w+)` (the simple pattern). -/
def selTrySimple (split : List Char × List Char) : Option (List Char × List Char) :=
  let g1 := split.1
  let rest := split.2
  if g1.isEmpty || g1.contains '\n' then Option.none
  else
    let w := rest.takeWhile isWordChar
    if w.isEmpty then Option.none else some (g1, w)

/-- The column-list parse of `parse_select`. -/
def selColumns (s : String) : List String :=
  if pyStrip s = "*" then ["*"]
  else (splitOnComma s.data).map (fun c => pyStrip (String.mk c))

/-- `CommandParser.parse_select`: first the WHERE pattern
`SELECT (.+) FROM (\w+) WHERE (.+)`, then the simple pattern
`SELECT (.+) FROM (\w+)` (both `re.match`, IGNORECASE, greedy group 1). -/
def parseSelect (command : String) : Except String (String × List String × Option String) :=
  match matchCI "SELECT ".data command.data with
  | Option.none => .error "Invalid syntax"
  | some body =>
    match lastViable selTryWhere (splitsAtCI " FROM ".data body) with
    | some (g1, w, g3) =>
      .ok (String.mk w, selColumns (String.mk g1), some (String.mk g3))
    | Option.none =>
      match lastViable selTrySimple (splitsAtCI " FROM ".data body) with
      | some (g1, w) => .ok (String.mk w, selColumns (String.mk g1), Option.none)
      | Option.none => .error "Invalid syntax"

/-- `CommandParser.parse_delete`:
`re.match(r"DELETE FROM (\w+)(?: WHERE (.+))?", command, IGNORECASE)`.
The optional group is tried greedily; if it cannot match, the statement still
parses with no condition. -/
def parseDelete (command : String) : Except String (String × Option String) :=
  match matchCI "DELETE FROM ".data command.data with
  | Option.none => .error "Invalid syntax"
  | some r1 =>
    let w := r1.takeWhile isWordChar
    if w.isEmpty then .error "Invalid syntax"
    else
      match matchCI " WHERE ".data (r1.drop w.length) with
      | some r3 =>
        let g2 := r3.takeWhile (fun c => c ≠ '\n')
        if g2.isEmpty then .ok (String.mk w, Option.none)
        else .ok (String.mk w, some (String.mk g2))
      | Option.none => .ok (String.mk w, Option.none)

/-- `CommandParser.parse_drop_table`:
`re.match(r"DROP TABLE (\w+)", command, IGNORECASE)`. -/
def parseDropTable (command : String) : Except String String :=
  match matchCI "DROP TABLE ".data command.data with
  | Option.none => .error "Invalid syntax"
  | some r =>
    let w := r.takeWhile isWordChar
    if w.isEmpty then .error "Invalid syntax" else .ok (String.mk w)

/-- Does `rest` match `(?:\s+WHERE\s+(.+))?$`?  Returns the WHERE group when
the (greedily preferred) optional group matches, `some none` when `rest` is
empty, and `none` when neither alternative matches.  The `$`-before-trailing-
newline nuance is not modeled (no exercised command contains a newline). -/
def updTail (rest : List Char) : Option (Option (List Char)) :=
  let withGroup :=
    (let ws := rest.takeWhile pyIsWs
     if ws.isEmpty then Option.none
     else
       match matchCI "WHERE".data (rest.drop ws.length) with
       | some r2 =>
         let ws2 := r2.takeWhile pyIsWs
         if ws2.isEmpty then Option.none
         else
           let body := r2.drop ws2.length
           let g3 := body.takeWhile (fun c => c ≠ '\n')
           if g3.isEmpty || g3.length ≠ body.length then Option.none else some g3
       | Option.none => Option.none)
  match withGroup with
  | some g3 => some (some g3)
  | Option.none => if rest.isEmpty then some Option.none else Option.none

/-- The lazy group `(.+?)` of `parse_update`: grow the SET clause from the
shortest nonempty candidate until the tail matches. -/
def updLazySplit (g2rev : List Char) (rest : List Char) :
    Option (List Char × Option (List Char)) :=
  match updTail rest with
  | some g3 => some (g2rev.reverse, g3)
  | Option.none =>
    match rest with
    | [] => Option.none
    | c :: cs => if c = '\n' then Option.none else updLazySplit (c :: g2rev) cs

/-- The SET-clause loop of `parse_update`: comma-separated assignments, each
split on the first `=` (a missing `=` is an error), column and literal
stripped, literal guessed via `_parse_value`, collected into a dict. -/
def parseAssignments : List (List Char) → List (String × Value) →
    Except String (List (String × Value))
  | [], acc => .ok acc
  | a :: rest, acc =>
    let a2 := stripChars a
    match splitFirstAt ['='] a2 with
    | Option.none => .error ("Invalid assignment: " ++ String.mk a2)
    | some (l, r) =>
      parseAssignments rest
        (dictUpsert (String.mk (stripChars l)) (parseValue (String.mk (stripChars r))) acc)

/-- `CommandParser.parse_update`:
`re.match(r"UPDATE\s+(\w+)\s+SET\s+(.+?)(?:\s+WHERE\s+(.+))?$", IGNORECASE)`,
then the SET-clause loop.  Group 2 is lazy, so the SET clause is the shortest
prefix allowing the optional WHERE tail (or the end of input) to match. -/
def parseUpdate (command : String) :
    Except String (String × List (String × Value) × Option String) :=
  match matchCI "UPDATE".data command.data with
  | Option.none => .error "Invalid syntax"
  | some r1 =>
    let ws1 := r1.takeWhile pyIsWs
    if ws1.isEmpty then .error "Invalid syntax"
    else
      let r2 := r1.drop ws1.length
      let name := r2.takeWhile isWordChar
      if name.isEmpty then .error "Invalid syntax"
      else
        let r3 := r2.drop name.length
        let ws2 := r3.takeWhile pyIsWs
        if ws2.isEmpty then .error "Invalid syntax"
        else
          match matchCI "SET".data (r3.drop ws2.length) with
          | Option.none => .error "Invalid syntax"
          | some r4 =>
            let ws3 := r4.takeWhile pyIsWs
            if ws3.isEmpty then .error "Invalid syntax"
            else
              match r4.drop ws3.length with
              | [] => .error "Invalid syntax"
              | c :: cs =>
                if c = '\n' then .error "Invalid syntax"
                else
                  match updLazySplit [c] cs with
                  | Option.none => .error "Invalid syntax"
                  | some (g2, g3) =>
                    let setClause := stripChars g2
                    let whereCond := g3.map (fun g => pyStrip (String.mk g))
                    (parseAssignments (splitOnComma setClause) []).map
                      (fun ups => (String.mk name, ups, whereCond))

/-- `DatabaseSession.execute_command` (engine.py).  The command is first
`strip().upper()`-ed — the whole text, identifiers and string literals
included — then dispatched on its leading keyword.  Parser `ValueError`s
surface as `"Error: <msg>"`; engine results are returned as-is.  The
confirmation prompts on DROP/DELETE are modeled as confirmed. -/
def executeCommand (st : DBState) (command : String) : ExecResult × DBState :=
  let c := pyUpper (pyStrip command)
  if leadsWith "CREATE TABLE".data c.data then
    match parseCreateTable c with
    | .ok (t, cols) => createTable st t cols
    | .error e => (.msg ("Error: " ++ e), st)
  else if leadsWith "DROP TABLE".data c.data then
    match parseDropTable c with
    | .ok t => dropTable st t
    | .error e => (.msg ("Error: " ++ e), st)
  else if c = "LIST TABLES" then
    let ts := dictKeys st.metadata
    (if ts.isEmpty then .msg "No tables exist" else .tables ts, st)
  else if leadsWith "INSERT INTO".data c.data then
    match parseInsert c with
    | .ok (t, vals) => insertRow st t vals
    | .error e => (.msg ("Error: " ++ e), st)
  else if leadsWith "SELECT".data c.data then
    match parseSelect c with
    | .ok (t, cols, cond) => selectRows st t cols cond
    | .error e => (.msg ("Error: " ++ e), st)
  else if leadsWith "UPDATE".data c.data then
    match parseUpdate c with
    | .ok (t, ups, cond) => updateRows st t ups cond
    | .error e => (.msg ("Error: " ++ e), st)
  else if leadsWith "DELETE FROM".data c.data then
    match parseDelete c with
    | .ok (t, cond) => deleteRows st t cond
    | .error e => (.msg ("Error: " ++ e), st)
  else (.msg "Error: Unknown command", st)

instance {ε α : Type} [DecidableEq ε] [DecidableEq α] : DecidableEq (Except ε α) := fun a b =>
  match a, b with
  | .ok x, .ok y =>
    if h : x = y then isTrue (by rw [h]) else isFalse (fun hc => by cases hc; exact h rfl)
  | .error x, .error y =>
    if h : x = y then isTrue (by rw [h]) else isFalse (fun hc => by cases hc; exact h rfl)
  | .ok _, .error _ => isFalse (fun hc => by cases hc)
  | .error _, .ok _ => isFalse (fun hc => by cases hc)

/-- The empty store: no metadata file, no data files. -/
def dbEmpty : DBState := ⟨[], []⟩

/-- The store after the session executes `CREATE TABLE users (name str)`. -/
def dbAfterCreate : DBState := (executeCommand dbEmpty "CREATE TABLE users (name str)").2

/-- The store after the session then executes
`INSERT INTO users VALUES ("John")`. -/
def dbAfterInsert : DBState := (executeCommand dbAfterCreate "INSERT INTO users VALUES (\"John\")").2

/-- A table `T` with a single non-identity `int` column, empty. -/
def intColState : DBState := ⟨[("T", [("id", "int"), ("N", "int")])], [("T", [])]⟩

/-- A table `t` with a single non-identity `int` column `a` and one row. -/
def updState : DBState :=
  ⟨[("t", [("id", "int"), ("a", "int")])], [("t", [[("a", Value.int 1), ("id", Value.int 1)]])]⟩

/-- Engine-level (core.py) construction: create `t(name str)` and insert two
rows — the reachable state used to break id uniqueness by UPDATE. -/
def coreT1 : DBState := (createTable dbEmpty "t" [("name", "str")]).2

def coreT2 : DBState := (insertRow coreT1 "t" [Value.str "a"]).2

def coreT3 : DBState := (insertRow coreT2 "t" [Value.str "b"]).2

/-- A table `w(c1 str, c2 int)` holding one row with id 3 — exercises the
max-id computation of a fresh insert. -/
def roundTripSt : DBState :=
  ⟨[("w", [("id", "int"), ("c1", "str"), ("c2", "int")])],
   [("w", [[("c1", Value.str "x"), ("id", Value.int 3)]])]⟩

/-- Claim C1 (counterexample): the claim says the full command-execution path
preserves the original case of identifiers and string literal contents, e.g.
that `INSERT INTO users VALUES ("John")` stores `users` and `"John"`.  In
fact `execute_command` upper-cases the whole command before parsing, so the
session stores the table as `USERS` and the literal as `JOHN`; no table
`users` exists and no row holds `John`. -/
theorem c1_case_counterexample :
    (executeCommand dbEmpty "CREATE TABLE users (name str)").1
      = ExecResult.msg "Table created successfully" ∧
    (executeCommand dbAfterCreate "INSERT INTO users VALUES (\"John\")").1
      = ExecResult.msg "Row inserted successfully" ∧
    dbAfterInsert.metadata = [("USERS", [("id", "int"), ("NAME", "str")])] ∧
    dictGet "users" dbAfterInsert.metadata = Option.none ∧
    readTableData dbAfterInsert "USERS" = [[("NAME", Value.str "JOHN"), ("id", Value.int 1)]] ∧
    readTableData dbAfterInsert "users" = [] := by decide

/-- Claim C1 (amended): the parsers themselves are case-insensitive on
keywords and preserve the case of identifiers and string literal contents of
the text they are given, but `execute_command` first upper-cases the whole
command, so along the full command-execution path identifiers and literals
are stored upper-cased. -/
theorem c1_case_amended :
    parseInsert "INSERT into users VALUES (\"John\")"
      = Except.ok ("users", [Value.str "John"]) ∧
    parseCreateTable "create TABLE users (name str)"
      = Except.ok ("users", [("name", "str")]) ∧
    pyUpper (pyStrip " INSERT INTO users VALUES (\"John\") ")
      = "INSERT INTO USERS VALUES (\"JOHN\")" ∧
    readTableData dbAfterInsert "USERS"
      = [[("NAME", Value.str "JOHN"), ("id", Value.int 1)]] := by decide

/-- Claim C3 (counterexample): the coercer actually used by INSERT and
UPDATE is `DataValidator._cast_value` from utils.py (core.py imports
`DataValidator` from `database_engine.utils`), and it rejects `"t"`, `"f"`
and bare integers, contrary to the claim. -/
theorem c3_bool_cast_counterexample :
    castValue (Value.str "t") "bool" = Except.error "Value t cannot be cast to bool" ∧
    castValue (Value.str "F") "bool" = Except.error "Value F cannot be cast to bool" ∧
    castValue (Value.int 1) "bool" = Except.error "Value 1 cannot be cast to bool" ∧
    castValue (Value.int 0) "bool" = Except.error "Value 0 cannot be cast to bool" := by decide

/-- Claim C3 (amended): the bool coercion used by INSERT row validation and
UPDATE SET validation accepts literal booleans and, case-insensitively, the
strings true/1/yes as true and false/0/no as false, and fails for everything
else — including `"t"`, `"f"` and bare integers.  The duplicate validator in
parser.py (never imported by the engine) is the one that also accepts
`"t"`/`"f"` and integer non-zero-ness. -/
theorem c3_bool_cast_amended :
    (∀ b, castValue (Value.bool b) "bool" = Except.ok (Value.bool b)) ∧
    (∀ s b, castValue (Value.str s) "bool" = Except.ok (Value.bool b) ↔
      (((pyLower s = "true" ∨ pyLower s = "1" ∨ pyLower s = "yes") ∧ b = true) ∨
       ((pyLower s = "false" ∨ pyLower s = "0" ∨ pyLower s = "no") ∧ b = false))) ∧
    (∀ n : Int, castValue (Value.int n) "bool"
      = Except.error ("Value " ++ toString n ++ " cannot be cast to bool")) ∧
    castValueParserCopy (Value.str "t") "bool" = Except.ok (Value.bool true) ∧
    castValueParserCopy (Value.str "F") "bool" = Except.ok (Value.bool false) ∧
    castValueParserCopy (Value.int 7) "bool" = Except.ok (Value.bool true) ∧
    castValueParserCopy (Value.int 0) "bool" = Except.ok (Value.bool false) := by
  refine ⟨fun b => rfl, fun s b => ?_, fun n => rfl, rfl, rfl, rfl, rfl⟩
  show (if pyLower s = "true" || pyLower s = "1" || pyLower s = "yes" then
          Except.ok (Value.bool true)
        else if pyLower s = "false" || pyLower s = "0" || pyLower s = "no" then
          Except.ok (Value.bool false)
        else Except.error ("Value " ++ s ++ " cannot be cast to bool")) = _ ↔ _
  split_ifs with h1 h2
  · simp only [Bool.or_eq_true, decide_eq_true_eq, or_assoc] at h1
    simp only [Except.ok.injEq, Value.bool.injEq]
    constructor
    · intro h; exact Or.inl ⟨h1, h.symm⟩
    · rintro (⟨_, hb⟩ | ⟨h2, hb⟩)
      · exact hb.symm
      · rcases h1 with h | h | h <;> rcases h2 with h2 | h2 | h2 <;>
          rw [h] at h2 <;> exact absurd h2 (by decide)
  · simp only [Bool.or_eq_true, decide_eq_true_eq, or_assoc] at h1 h2
    simp only [Except.ok.injEq, Value.bool.injEq]
    constructor
    · intro h; exact Or.inr ⟨h2, h.symm⟩
    · rintro (⟨h3, hb⟩ | ⟨_, hb⟩)
      · exact absurd h3 h1
      · exact hb.symm
  · simp only [Bool.or_eq_true, decide_eq_true_eq, or_assoc] at h1 h2
    constructor
    · intro h; exact h.elim
    · rintro (⟨h3, _⟩ | ⟨h3, _⟩)
      · exact absurd h3 h1
      · exact absurd h3 h2

/-- Claim C4 (counterexample): the unquoted literal `3.9` is guessed by
`_parse_value` as the float 3.9 (39/10), and coercing that float to an `int`
column succeeds by truncating to 3 — it does not fail with a type mismatch.
Inserting it into an int column stores 3. -/
theorem c4_int_cast_counterexample :
    parseValue "3.9" = Value.float ⟨39, 10⟩ ∧
    castValue (Value.float ⟨39, 10⟩) "int" = Except.ok (Value.int 3) ∧
    (insertRow intColState "T" [parseValue "3.9"]).1 = ExecResult.msg "Row inserted successfully" ∧
    readTableData (insertRow intColState "T" [parseValue "3.9"]).2 "T"
      = [[("N", Value.int 3), ("id", Value.int 1)]] := by decide

/-- Claim C4 (amended): int coercion of string literals is strict — the
string `"3.9"` (as produced by the quoted literal `"3.9"`) fails with a
reported cast error — but the float that the literal guesser produces for
the unquoted literal `3.9` is truncated toward zero to the integer 3 and
stored, not rejected. -/
theorem c4_int_cast_amended :
    parseValue "\"3.9\"" = Value.str "3.9" ∧
    castValue (Value.str "3.9") "int" = Except.error "Value 3.9 cannot be cast to int" ∧
    parseValue "3.9" = Value.float ⟨39, 10⟩ ∧
    castValue (Value.float ⟨39, 10⟩) "int" = Except.ok (Value.int 3) ∧
    (insertRow intColState "T" [Value.str "3.9"]).1
      = ExecResult.msg "Error: Value 3.9 cannot be cast to int" ∧
    (insertRow intColState "T" [Value.str "3.9"]).2 = intColState := by decide

/-- Claim C5 (code bug): after the session creates `users(name str)` and
inserts one row (stored with id 1), executing `DELETE FROM users WHERE
id = 1` reports `0 rows deleted`, leaves the store unchanged, and a
subsequent `SELECT * FROM users` still returns the row whose id is 1 — the
claim (and §8 of the spec) say the count should be 1 and the row gone.
Cause: `execute_command` upper-cases the command, so the condition becomes
`ID = 1` while rows store the key `id`; the lookup misses, `row.get` yields
None, and `None = 1` is false for every row. -/
theorem c5_delete_where_id_bug :
    executeCommand dbAfterInsert "DELETE FROM users WHERE id = 1"
      = (ExecResult.msg "0 rows deleted", dbAfterInsert) ∧
    (executeCommand dbAfterInsert "SELECT * FROM users").1
      = ExecResult.rows [[("NAME", Value.str "JOHN"), ("id", Value.int 1)]] ∧
    dictGet "id" [("NAME", Value.str "JOHN"), ("id", Value.int 1)] = some (Value.int 1) ∧
    evaluateCondition [("NAME", Value.str "JOHN"), ("id", Value.int 1)] "ID = 1"
      = Except.ok false := by decide

/-- Claim C7 (counterexample): comparing a string field to a number with `=`
or `!=` does not propagate any failure — Python equality across mismatched
types silently yields False/True, so `name = 5` evaluates to `ok false` and
`name != 5` to `ok true` on a row whose `name` is the string `"John"`. -/
theorem c7_eq_mismatch_counterexample :
    evaluateCondition [("name", Value.str "John")] "name = 5" = Except.ok false ∧
    evaluateCondition [("name", Value.str "John")] "name != 5" = Except.ok true := by decide

/-- Claim C7 (amended): on mismatched operand types (a string field against
a numeric literal), the four ordering operators `>`, `<`, `>=`, `<=`
propagate an evaluation failure, but `=` silently returns false and `!=`
silently returns true — for every string value in the row. -/
theorem c7_condition_mismatch_amended (s : String) :
    evaluateCondition [("name", Value.str s)] "name > 5"
      = Except.error "TypeError: unorderable operand types" ∧
    evaluateCondition [("name", Value.str s)] "name < 5"
      = Except.error "TypeError: unorderable operand types" ∧
    evaluateCondition [("name", Value.str s)] "name >= 5"
      = Except.error "TypeError: unorderable operand types" ∧
    evaluateCondition [("name", Value.str s)] "name <= 5"
      = Except.error "TypeError: unorderable operand types" ∧
    evaluateCondition [("name", Value.str s)] "name = 5" = Except.ok false ∧
    evaluateCondition [("name", Value.str s)] "name != 5" = Except.ok true :=
  ⟨rfl, rfl, rfl, rfl, rfl, rfl⟩

/-- Claim C9: `update_rows` does not protect the identity column.  Starting
from the reachable state reached by `create_table t(name str)` and two
inserts (ids 1 and 2), the update `SET id = 5` (no WHERE) passes the
column-existence check (`id` is in every stored schema), is coerced as int,
reports `2 rows updated`, and leaves two distinct rows both carrying id 5 —
id uniqueness is not preserved by `update_rows`. -/
theorem c9_update_breaks_id_uniqueness :
    coreT3.metadata = [("t", [("id", "int"), ("name", "str")])] ∧
    readTableData coreT3 "t"
      = [[("name", Value.str "a"), ("id", Value.int 1)],
         [("name", Value.str "b"), ("id", Value.int 2)]] ∧
    (updateRows coreT3 "t" [("id", Value.int 5)] Option.none).1
      = ExecResult.msg "2 rows updated" ∧
    readTableData (updateRows coreT3 "t" [("id", Value.int 5)] Option.none).2 "t"
      = [[("name", Value.str "a"), ("id", Value.int 5)],
         [("name", Value.str "b"), ("id", Value.int 5)]] ∧
    [("name", Value.str "a"), ("id", Value.int 5)]
      ≠ [("name", Value.str "b"), ("id", Value.int 5)] ∧
    dictGet "id" [("name", Value.str "a"), ("id", Value.int 5)]
      = dictGet "id" [("name", Value.str "b"), ("id", Value.int 5)] := by decide

/-- Claim C2: if coercing any SET value fails (unknown column or cast
failure anywhere in the updates), `update_rows` returns the reported error
and the state is completely unchanged — no column is applied to any row.
The coercion loop runs to completion before the row loop starts, so there
are never row mutations "already applied before the failing column"; the
claim's non-rollback caveat is vacuous for this code. -/
theorem c2_update_coercion_failure_aborts (st : DBState) (t : String)
    (ups : List (String × Value)) (cond : Option String) (columns : Schema) (e : String)
    (hmd : dictGet t st.metadata = some columns)
    (hfail : coerceUpdates columns ups = Except.error e) :
    updateRows st t ups cond = (ExecResult.msg ("Error: " ++ e), st) := by
  have hex : tableExists st t = true := by simp [tableExists, hmd]
  simp [updateRows, hex, hmd, hfail]

/-- Witness for C2 at a concrete input: a one-row table `t(a int)`, the
update `SET a = "x"` fails to coerce and the whole state is untouched. -/
theorem c2_update_coercion_failure_aborts_witness :
    updateRows updState "t" [("a", Value.str "x")] Option.none
      = (ExecResult.msg ("Error: " ++ "Value x cannot be cast to int"), updState) :=
  c2_update_coercion_failure_aborts updState "t" [("a", Value.str "x")] Option.none
    [("id", "int"), ("a", "int")] "Value x cannot be cast to int" (by decide) (by decide)

/-- Claim C10: `select_rows` performs no write — for every table name,
column list and optional condition, the state it returns is exactly the
input state (metadata and every table's rows identical), whether it returns
rows, fails with a missing table, or aborts on a comparison error. -/
theorem c10_select_rows_no_write (st : DBState) (t : String) (cols : List String)
    (cond : Option String) :
    (selectRows st t cols cond).2 = st ∧
    (selectRows st t cols cond).2.metadata = st.metadata ∧
    (∀ name, readTableData (selectRows st t cols cond).2 name = readTableData st name) := by
  have h : (selectRows st t cols cond).2 = st := by
    unfold selectRows
    dsimp only
    repeat' split
    all_goals rfl
  exact ⟨h, by rw [h], fun name => by rw [h]⟩

theorem dictGet_upsert_self {α : Type} (k : String) (v : α) (d : List (String × α)) :
    dictGet k (dictUpsert k v d) = some v := by
  induction d with
  | nil => simp [dictUpsert, dictGet]
  | cons p rest ih =>
    by_cases h : p.1 = k
    · simp [dictUpsert, h, dictGet]
    · simp [dictUpsert, h, dictGet, ih]

theorem dictUpsert_absent {α : Type} (k : String) (v : α) (d : List (String × α))
    (h : k ∉ dictKeys d) : dictUpsert k v d = d ++ [(k, v)] := by
  induction d with
  | nil => rfl
  | cons p rest ih =>
    simp only [dictKeys, List.map_cons, List.mem_cons, not_or] at h
    simp only [dictUpsert]
    rw [if_neg (fun hh => h.1 hh.symm), ih h.2]
    rfl

theorem dictKeys_append {α : Type} (a b : List (String × α)) :
    dictKeys (a ++ b) = dictKeys a ++ dictKeys b := by
  simp [dictKeys]

theorem dictUpsertMany_disjoint {α : Type} (us d : List (String × α))
    (hnd : (dictKeys us).Nodup) (hdis : ∀ k ∈ dictKeys us, k ∉ dictKeys d) :
    dictUpsertMany d us = d ++ us := by
  induction us generalizing d with
  | nil => simp [dictUpsertMany]
  | cons p rest ih =>
    simp only [dictKeys, List.map_cons, List.nodup_cons] at hnd
    have hstep : dictUpsert p.1 p.2 d = d ++ [p] := by
      have := dictUpsert_absent p.1 p.2 d (hdis p.1 (by simp [dictKeys]))
      rw [this]
    have htail : dictUpsertMany (d ++ [p]) rest = (d ++ [p]) ++ rest := by
      refine ih (d ++ [p]) hnd.2 ?_
      intro k hk
      rw [dictKeys_append]
      simp only [List.mem_append, not_or]
      constructor
      · exact hdis k (by simp [dictKeys]; right; exact (by simpa [dictKeys] using hk))
      · intro hc
        simp only [dictKeys, List.map_cons, List.map_nil, List.mem_singleton] at hc
        exact hnd.1 (hc ▸ (by simpa [dictKeys] using hk))
    calc dictUpsertMany d (p :: rest)
        = dictUpsertMany (dictUpsert p.1 p.2 d) rest := rfl
      _ = dictUpsertMany (d ++ [p]) rest := by rw [hstep]
      _ = (d ++ [p]) ++ rest := htail
      _ = d ++ (p :: rest) := by simp

theorem dictGet_notin_append {α : Type} (k : String) (a b : List (String × α))
    (h : k ∉ dictKeys a) : dictGet k (a ++ b) = dictGet k b := by
  induction a with
  | nil => rfl
  | cons p rest ih =>
    simp only [dictKeys, List.map_cons, List.mem_cons, not_or] at h
    simp only [List.cons_append, dictGet]
    rw [if_neg (fun hh => h.1 hh.symm)]
    exact ih h.2

/-- Claim C6 (counterexample): the claim quantifies over any declared column
list; declaring a column literally named `id` makes `{**DEFAULT_COLUMNS,
**columns}` overwrite the implicit `id:int` in place, so the stored schema
maps `id` to the declared type (`str` here), not `int`. -/
theorem c6_create_table_id_counterexample :
    (createTable dbEmpty "t" [("id", "str")]).1 = ExecResult.msg "Table created successfully" ∧
    dictGet "t" (createTable dbEmpty "t" [("id", "str")]).2.metadata = some [("id", "str")] ∧
    dictGet "id" ((dictGet "t" (createTable dbEmpty "t" [("id", "str")]).2.metadata).getD [])
      = some "str" := by decide

/-- Claim C6 (amended): for every fresh table name and declared column list
(distinct names) in which no column is named `id`, `create_table` succeeds
and stores exactly the schema `id:int` followed by every declared column
with its declared type, and `table_exists` is true afterward. -/
theorem c6_create_table_schema_amended (st : DBState) (t : String) (cols : Schema)
    (hex : tableExists st t = false)
    (hid : "id" ∉ dictKeys cols)
    (hnd : (dictKeys cols).Nodup) :
    (createTable st t cols).1 = ExecResult.msg "Table created successfully" ∧
    dictGet t (createTable st t cols).2.metadata = some (("id", "int") :: cols) ∧
    tableExists (createTable st t cols).2 t = true := by
  have hmerge : dictUpsertMany [("id", "int")] cols = ("id", "int") :: cols := by
    have hdis : ∀ k ∈ dictKeys cols, k ∉ dictKeys [("id", "int")] := by
      intro k hk
      simp only [dictKeys, List.map_cons, List.map_nil, List.mem_singleton]
      intro hc
      exact hid (hc ▸ hk)
    simpa using dictUpsertMany_disjoint cols [("id", "int")] hnd hdis
  have hgm : dictGet t (createTable st t cols).2.metadata = some (("id", "int") :: cols) := by
    simp only [createTable, hex, Bool.false_eq_true, if_false, writeTableData]
    rw [hmerge]
    exact dictGet_upsert_self t _ st.metadata
  refine ⟨?_, hgm, ?_⟩
  · simp [createTable, hex]
  · simp only [tableExists, hgm, Option.isSome_some]

/-- Witness for C6 at a concrete input: creating `users(name str, age int)`
in the empty store yields the schema `id:int, name:str, age:int` and an
existing table. -/
theorem c6_create_table_schema_amended_witness :
    (createTable dbEmpty "users" [("name", "str"), ("age", "int")]).1
      = ExecResult.msg "Table created successfully" ∧
    dictGet "users" (createTable dbEmpty "users" [("name", "str"), ("age", "int")]).2.metadata
      = some (("id", "int") :: [("name", "str"), ("age", "int")]) ∧
    tableExists (createTable dbEmpty "users" [("name", "str"), ("age", "int")]).2 "users"
      = true :=
  c6_create_table_schema_amended dbEmpty "users" [("name", "str"), ("age", "int")]
    (by decide) (by decide) (by decide)

theorem castPairs_keys (l : List ((String × String) × Value)) (pairs : List (String × Value))
    (h : castPairs l = Except.ok pairs) :
    pairs.map Prod.fst = l.map (fun p => p.1.1) := by
  induction l generalizing pairs with
  | nil =>
    simp only [castPairs] at h
    cases h
    rfl
  | cons p rest ih =>
    obtain ⟨⟨c, ty⟩, v⟩ := p
    simp only [castPairs] at h
    cases hcv : castValue v ty with
    | error e =>
      rw [hcv] at h
      simp only [Bind.bind, Except.bind] at h
      exact absurd h (by simp)
    | ok v2 =>
      rw [hcv] at h
      simp only [Bind.bind, Except.bind] at h
      cases hcp : castPairs rest with
      | error e =>
        rw [hcp] at h
        exact absurd h (by simp)
      | ok r =>
        rw [hcp] at h
        cases h
        simp [ih r hcp]

theorem castPairs_get (l : List ((String × String) × Value)) (pairs : List (String × Value))
    (h : castPairs l = Except.ok pairs) :
    ∀ (i : Nat) (hi : i < l.length) (hi2 : i < pairs.length),
      (pairs.get ⟨i, hi2⟩).1 = (l.get ⟨i, hi⟩).1.1 ∧
      castValue (l.get ⟨i, hi⟩).2 (l.get ⟨i, hi⟩).1.2 = Except.ok (pairs.get ⟨i, hi2⟩).2 := by
  induction l generalizing pairs with
  | nil => intro i hi _; exact absurd hi (by simp)
  | cons p rest ih =>
    obtain ⟨⟨c, ty⟩, v⟩ := p
    simp only [castPairs] at h
    cases hcv : castValue v ty with
    | error e =>
      rw [hcv] at h
      simp only [Bind.bind, Except.bind] at h
      exact absurd h (by simp)
    | ok v2 =>
      rw [hcv] at h
      simp only [Bind.bind, Except.bind] at h
      cases hcp : castPairs rest with
      | error e =>
        rw [hcp] at h
        exact absurd h (by simp)
      | ok r =>
        rw [hcp] at h
        cases h
        intro i hi hi2
        cases i with
        | zero => exact ⟨rfl, hcv⟩
        | succ j =>
          exact ih r hcp j (Nat.lt_of_succ_lt_succ hi) (Nat.lt_of_succ_lt_succ hi2)

theorem dictGet_get_append (d e : List (String × Value)) :
    ∀ (i : Nat) (hi : i < d.length), (dictKeys d).Nodup →
      dictGet (d.get ⟨i, hi⟩).1 (d ++ e) = some (d.get ⟨i, hi⟩).2 := by
  induction d with
  | nil => intro i hi _; exact absurd hi (by simp)
  | cons p rest ih =>
    intro i hi hnd
    simp only [dictKeys, List.map_cons, List.nodup_cons] at hnd
    cases i with
    | zero => simp [dictGet]
    | succ j =>
      have hj : j < rest.length := Nat.lt_of_succ_lt_succ hi
      have hkey : (rest.get ⟨j, hj⟩).1 ∈ List.map Prod.fst rest :=
        List.mem_map.mpr ⟨rest.get ⟨j, hj⟩, List.get_mem rest j hj, rfl⟩
      have hne : p.1 ≠ (rest.get ⟨j, hj⟩).1 := fun hc => hnd.1 (hc ▸ hkey)
      show dictGet ((rest.get ⟨j, hj⟩).1) (p :: (rest ++ e)) = _
      simp only [dictGet]
      rw [if_neg hne]
      exact ih j hj hnd.2

theorem idsAsInts_append_one (data : List Row) (ns : List Int) (r : Row) (k : Int)
    (h : idsAsInts data = some ns) (hr : rowIdOrZero r = Value.int k) :
    idsAsInts (data ++ [r]) = some (ns ++ [k]) := by
  induction data generalizing ns with
  | nil =>
    simp only [idsAsInts] at h
    cases h
    simp [idsAsInts, hr]
  | cons r0 rest ih =>
    simp only [idsAsInts] at h
    cases h0 : rowIdOrZero r0 with
    | int n =>
      rw [h0] at h
      cases hrest : idsAsInts rest with
      | none => rw [hrest] at h; exact absurd h (by simp)
      | some ns2 =>
        rw [hrest] at h
        simp only [Option.map_some'] at h
        cases h
        have happ : idsAsInts (rest ++ [r]) = some (ns2 ++ [k]) := ih ns2 hrest
        show idsAsInts (r0 :: (rest ++ [r])) = some ((n :: ns2) ++ [k])
        simp only [idsAsInts]
        rw [h0, happ]
        rfl
    | float q => rw [h0] at h; exact absurd h (by simp)
    | bool b => rw [h0] at h; exact absurd h (by simp)
    | str s => rw [h0] at h; exact absurd h (by simp)
    | null => rw [h0] at h; exact absurd h (by simp)

theorem pyMaxDefault0_append_succ (ns : List Int) :
    pyMaxDefault0 (ns ++ [pyMaxDefault0 ns + 1]) = pyMaxDefault0 ns + 1 := by
  cases ns with
  | nil => rfl
  | cons n rest =>
    show List.foldl max n (rest ++ [List.foldl max n rest + 1]) = List.foldl max n rest + 1
    rw [List.foldl_append]
    show max (List.foldl max n rest) (List.foldl max n rest + 1) = List.foldl max n rest + 1
    exact max_eq_right (by omega)

theorem id_notin_dataColumns (columns : Schema) :
    "id" ∉ dictKeys (dataColumns columns) := by
  intro h
  simp only [dictKeys, dataColumns, List.mem_map] at h
  obtain ⟨p, hp, hid⟩ := h
  rw [List.mem_filter] at hp
  have hne : p.1 ≠ "id" := by simpa using hp.2
  exact hne hid

theorem readTableData_write (st : DBState) (t : String) (d : List Row) :
    readTableData (writeTableData st t d) t = d := by
  simp [readTableData, writeTableData, dictGet_upsert_self]

/-- Claim C8: inserting values `[v1,...,vn]` into a table whose non-identity
columns are `[c1,...,cn]` (distinct names, coercions succeeding as `pairs`)
succeeds, appends a row holding exactly the coerced pairs followed by the
identity, where each `ci` field of the stored row looks up to the
declared-type coercion of `vi`; the id is `max(existing ids, default 0) + 1`,
hence 1 on an empty table, and the new id becomes the new maximum, so the
next insertion (absent deletions) gets the successor — ids increment by 1. -/
theorem c8_insert_row_roundtrip
    (st : DBState) (t : String) (vals : List Value) (columns : Schema)
    (pairs : List (String × Value)) (ns : List Int)
    (hmd : dictGet t st.metadata = some columns)
    (hnd : (dictKeys (dataColumns columns)).Nodup)
    (harity : (vals.length : Int) = (columns.length : Int) - 1)
    (hlen : vals.length = (dataColumns columns).length)
    (hcast : castPairs ((dataColumns columns).zip vals) = Except.ok pairs)
    (hids : idsAsInts (readTableData st t) = some ns) :
    (insertRow st t vals).1 = ExecResult.msg "Row inserted successfully" ∧
    readTableData (insertRow st t vals).2 t
      = readTableData st t ++ [pairs ++ [("id", Value.int (pyMaxDefault0 ns + 1))]] ∧
    (readTableData st t = [] → pyMaxDefault0 ns + 1 = 1) ∧
    (∀ (i : Nat) (hi : i < pairs.length),
      dictGet (pairs.get ⟨i, hi⟩).1 (pairs ++ [("id", Value.int (pyMaxDefault0 ns + 1))])
        = some (pairs.get ⟨i, hi⟩).2) ∧
    (∀ (i : Nat) (h1 : i < (dataColumns columns).length) (h2 : i < vals.length)
        (h3 : i < pairs.length),
      (pairs.get ⟨i, h3⟩).1 = ((dataColumns columns).get ⟨i, h1⟩).1 ∧
      castValue (vals.get ⟨i, h2⟩) ((dataColumns columns).get ⟨i, h1⟩).2
        = Except.ok (pairs.get ⟨i, h3⟩).2) ∧
    idsAsInts (readTableData (insertRow st t vals).2 t)
      = some (ns ++ [pyMaxDefault0 ns + 1]) ∧
    pyMaxDefault0 (ns ++ [pyMaxDefault0 ns + 1]) = pyMaxDefault0 ns + 1 := by
  have hex : tableExists st t = true := by simp [tableExists, hmd]
  have hkeys : pairs.map Prod.fst = dictKeys (dataColumns columns) := by
    rw [castPairs_keys _ _ hcast]
    have hz : ((dataColumns columns).zip vals).map Prod.fst = dataColumns columns :=
      List.map_fst_zip _ _ (le_of_eq hlen.symm)
    show _ = (dataColumns columns).map Prod.fst
    calc ((dataColumns columns).zip vals).map (fun p => p.1.1)
        = (((dataColumns columns).zip vals).map Prod.fst).map Prod.fst := by
          rw [List.map_map]
          rfl
      _ = (dataColumns columns).map Prod.fst := by rw [hz]
  have hpnodup : (dictKeys pairs).Nodup := by
    show (pairs.map Prod.fst).Nodup
    rw [hkeys]
    exact hnd
  have hidnotin : "id" ∉ dictKeys pairs := by
    show "id" ∉ pairs.map Prod.fst
    rw [hkeys]
    exact id_notin_dataColumns columns
  have hvrd : validateRowData columns vals = Except.ok pairs := by
    unfold validateRowData
    rw [if_neg (fun hc => hc harity)]
    rw [hcast]
    simp only [Bind.bind, Except.bind]
    rw [show dictUpsertMany [] pairs = [] ++ pairs from
      dictUpsertMany_disjoint pairs [] hpnodup (fun k _ => by simp [dictKeys])]
    rfl
  have hnew : newIdE (readTableData st t) = Except.ok (pyMaxDefault0 ns + 1) := by
    simp [newIdE, hids]
  have hrow : dictUpsert "id" (Value.int (pyMaxDefault0 ns + 1)) pairs
      = pairs ++ [("id", Value.int (pyMaxDefault0 ns + 1))] :=
    dictUpsert_absent _ _ _ hidnotin
  have hins : insertRow st t vals
      = (ExecResult.msg "Row inserted successfully",
         writeTableData st t
           (readTableData st t ++ [pairs ++ [("id", Value.int (pyMaxDefault0 ns + 1))]])) := by
    unfold insertRow
    simp only [hex, Bool.not_true, Bool.false_eq_true, if_false, hmd, Option.getD_some,
      hvrd, hnew, hrow]
  refine ⟨by rw [hins], ?_, ?_, ?_, ?_, ?_, ?_⟩
  · rw [hins]
    exact readTableData_write st t _
  · intro hempty
    rw [hempty] at hids
    simp only [idsAsInts] at hids
    cases hids
    decide
  · intro i hi
    exact dictGet_get_append pairs [("id", Value.int (pyMaxDefault0 ns + 1))] i hi hpnodup
  · intro i h1 h2 h3
    have hzl : ((dataColumns columns).zip vals).length = (dataColumns columns).length := by
      simp [List.length_zip, hlen]
    have hi0 : i < ((dataColumns columns).zip vals).length := by
      rw [hzl]
      exact h1
    have hg := castPairs_get _ _ hcast i hi0 h3
    have hzget : ((dataColumns columns).zip vals).get ⟨i, hi0⟩
        = ((dataColumns columns).get ⟨i, h1⟩, vals.get ⟨i, h2⟩) := by
      simp [List.get_eq_getElem, List.getElem_zip]
    rw [hzget] at hg
    exact ⟨hg.1, hg.2⟩
  · rw [hins, readTableData_write]
    refine idsAsInts_append_one _ _ _ _ hids ?_
    show rowIdOrZero (pairs ++ [("id", Value.int (pyMaxDefault0 ns + 1))]) = _
    unfold rowIdOrZero
    rw [dictGet_notin_append _ _ _ hidnotin]
    rfl
  · exact pyMaxDefault0_append_succ ns

/-- Witness for C8 at a concrete input: inserting `["A", 7]` into
`w(c1 str, c2 int)` whose single existing row has id 3 stores
`{c1: "A", c2: 7, id: 4}`. -/
theorem c8_insert_row_roundtrip_witness :
    (insertRow roundTripSt "w" [Value.str "A", Value.int 7]).1
      = ExecResult.msg "Row inserted successfully" ∧
    readTableData (insertRow roundTripSt "w" [Value.str "A", Value.int 7]).2 "w"
      = readTableData roundTripSt "w"
        ++ [[("c1", Value.str "A"), ("c2", Value.int 7)]
            ++ [("id", Value.int (pyMaxDefault0 [3] + 1))]] ∧
    (readTableData roundTripSt "w" = [] → pyMaxDefault0 [3] + 1 = 1) ∧
    (∀ (i : Nat)
        (hi : i < ([("c1", Value.str "A"), ("c2", Value.int 7)] : List (String × Value)).length),
      dictGet
          (([("c1", Value.str "A"), ("c2", Value.int 7)] : List (String × Value)).get ⟨i, hi⟩).1
          ([("c1", Value.str "A"), ("c2", Value.int 7)]
            ++ [("id", Value.int (pyMaxDefault0 [3] + 1))])
        = some
            (([("c1", Value.str "A"), ("c2", Value.int 7)] :
              List (String × Value)).get ⟨i, hi⟩).2) ∧
    (∀ (i : Nat)
        (h1 : i < (dataColumns [("id", "int"), ("c1", "str"), ("c2", "int")]).length)
        (h2 : i < ([Value.str "A", Value.int 7] : List Value).length)
        (h3 : i < ([("c1", Value.str "A"), ("c2", Value.int 7)] : List (String × Value)).length),
      (([("c1", Value.str "A"), ("c2", Value.int 7)] : List (String × Value)).get ⟨i, h3⟩).1
        = ((dataColumns [("id", "int"), ("c1", "str"), ("c2", "int")]).get ⟨i, h1⟩).1 ∧
      castValue (([Value.str "A", Value.int 7] : List Value).get ⟨i, h2⟩)
          ((dataColumns [("id", "int"), ("c1", "str"), ("c2", "int")]).get ⟨i, h1⟩).2
        = Except.ok
            (([("c1", Value.str "A"), ("c2", Value.int 7)] :
              List (String × Value)).get ⟨i, h3⟩).2) ∧
    idsAsInts (readTableData (insertRow roundTripSt "w" [Value.str "A", Value.int 7]).2 "w")
      = some (([3] : List Int) ++ [pyMaxDefault0 [3] + 1]) ∧
    pyMaxDefault0 (([3] : List Int) ++ [pyMaxDefault0 [3] + 1])
      = pyMaxDefault0 [3] + 1 :=
  c8_insert_row_roundtrip roundTripSt "w" [Value.str "A", Value.int 7]
    [("id", "int"), ("c1", "str"), ("c2", "int")]
    [("c1", Value.str "A"), ("c2", Value.int 7)] [3]
    (by decide) (by decide) (by decide) (by decide) (by decide) (by decide)
